import Mathlib

/-!
Verification of the domain-hunter scanner (`domain_hunter_railway.py`):
a shallow embedding of its consensus classifier (`WHOISChecker`), proxy
pool (`ProxyManager`), price filter (`PriceChecker`), enumeration cursor
and persistence layer (`DomainHunter`), with theorems checking the
properties stated in the design document.
-/

namespace DomainHunterModel

/-- Outcome of one `future.result(timeout=2)` call inside
`WHOISChecker.check_domain`: either the per-source checker returned a
value (`some true` = no registration evidence, `some false` =
registration evidence found, `none` = inconclusive), or the call raised
or timed out, which the surrounding `except: pass` swallows. -/
inductive FutureOutcome where
  | ok (r : Option Bool)
  | exn
deriving DecidableEq, Repr

/-- The end-of-round evaluation of `WHOISChecker.check_domain`
(source lines 198-208): any `False` collected result gives "taken", else
any `True` gives "available", else "taken". -/
def evalResults (results : List Bool) : String :=
  if results.any (fun r => r == false) then "taken"
  else if results.any (fun r => r == true) then "available"
  else "taken"

/-- The result-consumption loop of `WHOISChecker.check_domain`
(source lines 176-196): futures are consumed in arrival order; a raised
`future.result` is skipped by `except: pass`; a non-`None` result is
appended to `results` and immediately decides the round (`False` gives
"taken", `True` gives "available"); when the processed arrival sequence
is exhausted — including by the round timeout, which simply truncates
it — the collected results are evaluated. -/
def check_domain_loop : List FutureOutcome → List Bool → String
  | [], results => evalResults results
  | FutureOutcome.exn :: rest, results => check_domain_loop rest results
  | FutureOutcome.ok none :: rest, results => check_domain_loop rest results
  | FutureOutcome.ok (some false) :: _, _ => "taken"
  | FutureOutcome.ok (some true) :: _, _ => "available"

/-- `WHOISChecker.check_domain` (source lines 168-208), as a function of
the arrival-ordered outcomes of the per-source futures processed before
the round timeout. -/
def check_domain (outcomes : List FutureOutcome) : String :=
  check_domain_loop outcomes []

/-- Result of one call to a source's `check` capability inside
`WHOISChecker._check`: it returned an `Option Bool`, or it raised. -/
inductive CallResult where
  | value (r : Option Bool)
  | raised
deriving DecidableEq, Repr

/-- Outcome of the `requests.get` inside a source checker
(`WHOISChecker._request`): the request raised — connection error,
timeout — or returned a response with a status code and a body. -/
inductive HttpResult where
  | exn
  | resp (status : Nat) (text : String)
deriving DecidableEq

/-- Substring test modelling Python's `needle in text`. -/
def containsSub (hay needle : List Char) : Bool :=
  hay.tails.any fun t => needle.isPrefixOf t

/-- Lower-casing modelling Python's `str.lower()`, over the body's
characters. -/
def lowerChars (s : String) : List Char :=
  s.toList.map Char.toLower

namespace WHOISChecker

/-- `WHOISChecker._check` (source lines 228-247): when `use_proxy` is
set, `proxyGot` is what `ProxyManager.get_proxy` returned, and a missing
proxy aborts the attempt with `None`; otherwise the capability's outcome
is returned, a raise being caught and turned into `None`. The second
component records whether the proxy was marked bad. -/
def _check (use_proxy : Bool) (proxyGot : Option String)
    (call : CallResult) : Option Bool × Bool :=
  let proxy := if use_proxy then proxyGot else none
  if use_proxy && proxy.isNone then (none, false)
  else
    match call with
    | CallResult.value r => (r, proxy.isSome && r.isNone)
    | CallResult.raised => (none, proxy.isSome)

/-- `WHOISChecker._check_with_retry` (source lines 210-226): one attempt
with the chosen proxy strategy, then one retry with the opposite
strategy; the first non-`None` result wins, else `None`. -/
def _check_with_retry (use_proxy : Bool) (pg1 pg2 : Option String)
    (c1 c2 : CallResult) : Option Bool :=
  match (_check use_proxy pg1 c1).1 with
  | some v => some v
  | none => (_check (!use_proxy) pg2 c2).1

/-- `WHOISChecker.check_whois_com` (source lines 428-448): a raise
anywhere is caught and gives `None`; a missing/failed response
(`not r or r.status_code != 200`) gives `None`; otherwise the lowered
body is scanned — availability markers give `True`, registration markers
give `False`, anything else gives `None`. (A Python `requests` response
is falsy exactly when its status is an error status, so `not r` adds
nothing beyond the `!= 200` test.) -/
def check_whois_com (r : HttpResult) : Option Bool :=
  match r with
  | HttpResult.exn => none
  | HttpResult.resp status text =>
    if status ≠ 200 then none
    else
      let t := lowerChars text
      if containsSub t ("no match".toList) ||
          containsSub t ("not found".toList) ||
          containsSub t ("available for registration".toList) then
        some true
      else if containsSub t ("registrar:".toList) ||
          containsSub t ("creation date:".toList) ||
          containsSub t ("registry expiry".toList) ||
          containsSub t ("updated date:".toList) then
        some false
      else none

end WHOISChecker

/-- The priority TLD list of the scanner (source lines 45-48). -/
def PRIORITY_TLDS : List String :=
  ["fm", "am", "is", "it", "tv", "cc", "ws",
   "com", "net", "org", "app", "dev", "xyz", "pro", "biz", "top", "fun",
   "art", "bot"]

/-- The persisted scan cursor `{current_length, current_tld_index,
current_combo_index}` of `DomainHunter` (source lines 971-978). -/
structure ScanState where
  current_length : Nat
  current_tld_index : Nat
  current_combo_index : Nat
deriving DecidableEq, Repr

/-- One normalization step at the top of the `search_domains` loop
(source lines 1034-1049): a length past 6 wraps the cursor to
`{3, 0, 0}`; an exhausted TLD list advances to the next length with both
indices reset to 0; otherwise the cursor is left as is to drive the
inner combo loop. -/
def searchStep (s : ScanState) : ScanState :=
  if 6 < s.current_length then ⟨3, 0, 0⟩
  else if PRIORITY_TLDS.length ≤ s.current_tld_index then
    ⟨s.current_length + 1, 0, 0⟩
  else s

/-- A cursor from which the inner combo loop actually runs: length within
the configured bound and a TLD left to scan. -/
def Processable (s : ScanState) : Prop :=
  s.current_length ≤ 6 ∧ s.current_tld_index < PRIORITY_TLDS.length

/-- Lower-case alphabet, `string.ascii_lowercase`. -/
def ascii_lowercase : List Char := "abcdefghijklmnopqrstuvwxyz".toList

/-- Digits, `string.digits`. -/
def asciiDigits : List Char := "0123456789".toList

/-- The combo alphabet chosen in `search_domains` (source line 1052):
letters only up to length 3, letters and digits above. -/
def charsFor (length : Nat) : List Char :=
  if length ≤ 3 then ascii_lowercase else ascii_lowercase ++ asciiDigits

/-- `DomainHunter.generate_combos` (source lines 1027-1029):
`itertools.product(chars, repeat=length)` in order — the leftmost
position varies slowest. -/
def generate_combos : Nat → List Char → List (List Char)
  | 0, _ => [[]]
  | n + 1, chars =>
    chars.flatMap fun c => (generate_combos n chars).map fun rest => c :: rest

/-- The candidate domain text at a cursor position: combo at
`comboIdx` of the combo list for `length`, joined with the TLD at
`tldIdx` (source line 1063). -/
def candidateAt (length tldIdx comboIdx : Nat) : Option String :=
  match (generate_combos length (charsFor length)).get? comboIdx,
      PRIORITY_TLDS.get? tldIdx with
  | some combo, some tld => some (String.mk combo ++ "." ++ tld)
  | _, _ => none

/-- The cursor persisted after the inner loop finishes candidate `i`:
`search_domains` stores `current_combo_index = i`, the index just
processed (source line 1095), and the periodic `save_state` writes that
value out unchanged. -/
def stateAfterCandidate (s : ScanState) (i : Nat) : ScanState :=
  { s with current_combo_index := i }

/-- The combo indices the inner loop of `search_domains` processes when
entered with cursor `s` over a combo list of length `n` (source line
1058): `range(current_combo_index, n)`. -/
def resumedIndices (s : ScanState) (n : Nat) : List Nat :=
  List.range' s.current_combo_index (n - s.current_combo_index)

/-- The first candidate index processed after a restart with persisted
cursor `s`. -/
def firstResumed (s : ScanState) (n : Nat) : Option Nat :=
  (resumedIndices s n).head?

/-- The mutable state of `ProxyManager` (source lines 50-63): the
rotation deque (built with `maxlen=100`), the quarantine set
`bad_proxies`, the untested-proxy queue, the time of the last completed
scrape, and the scrape-in-progress flag. Time is modelled in whole
seconds. -/
structure PMState where
  proxies : List String
  bad_proxies : List String
  proxy_queue : List String
  last_scrape : Int
  scraping : Bool
deriving DecidableEq, Repr

/-- Append to the rotation deque, which was built with `maxlen=100`: a
full deque discards its oldest (leftmost) entry. -/
def dequeAppend (l : List String) (p : String) : List String :=
  if l.length < 100 then l ++ [p] else l.drop 1 ++ [p]

namespace ProxyManager

/-- `ProxyManager.get_proxy` (source lines 65-70): rotate the deque —
pop the front entry, push it to the back — and return it; `None` on an
empty pool. -/
def get_proxy (s : PMState) : Option String × PMState :=
  match s.proxies with
  | [] => (none, s)
  | p :: rest => (some p, { s with proxies := rest ++ [p] })

/-- `ProxyManager.mark_bad` (source lines 72-75): remove the proxy from
the rotation (its first occurrence, when present) and add it to the
quarantine set. -/
def mark_bad (proxy : String) (s : PMState) : PMState :=
  { s with proxies := s.proxies.erase proxy,
           bad_proxies := s.bad_proxies.insert proxy }

/-- `ProxyManager.trigger_scrape` (source lines 77-80): start a scrape
thread only when more than 3600 seconds have passed since the last
scrape, no scrape is already in progress, and the pool holds fewer than
30 proxies; otherwise do nothing. The flag says whether a scrape was
started. -/
def trigger_scrape (now : Int) (s : PMState) : PMState × Bool :=
  if 3600 < now - s.last_scrape ∧ s.scraping = false ∧
      s.proxies.length < 30 then
    ({ s with scraping := true }, true)
  else (s, false)

/-- The effect of a completing `ProxyManager._scrape` (source lines
82-111) on the shared state: the scraped addresses minus the quarantine
set go onto the untested queue, `last_scrape` is set, and the
in-progress flag is dropped. -/
def scrape_enqueue (found : List String) (now : Int) (s : PMState) :
    PMState :=
  { s with
    proxy_queue := s.proxy_queue ++
      found.filter (fun p => decide (p ∉ s.bad_proxies)),
    last_scrape := now,
    scraping := false }

/-- One iteration of the `ProxyManager._tester` loop that pops a queued
proxy (source lines 113-138): a quarantined proxy is dropped without a
probe; otherwise it is probed (`ok` is the probe verdict) and admitted
to the rotation only on success and only when not already present. -/
def tester_step (ok : Bool) (s : PMState) : PMState :=
  match s.proxy_queue with
  | [] => s
  | proxy :: rest =>
    if proxy ∈ s.bad_proxies then { s with proxy_queue := rest }
    else if ok ∧ proxy ∉ s.proxies then
      { s with proxy_queue := rest,
               proxies := dequeAppend s.proxies proxy }
    else { s with proxy_queue := rest }

end ProxyManager

/-- One interleaving step of the `ProxyManager` threads: a `get_proxy`
call, a `mark_bad` call, a scrape completing, one tester iteration, or a
`trigger_scrape` call. -/
inductive PMStep : PMState → PMState → Prop
  | get (s : PMState) : PMStep s (ProxyManager.get_proxy s).2
  | bad (p : String) (s : PMState) : PMStep s (ProxyManager.mark_bad p s)
  | scrape (found : List String) (now : Int) (s : PMState) :
      PMStep s (ProxyManager.scrape_enqueue found now s)
  | test (ok : Bool) (s : PMState) : PMStep s (ProxyManager.tester_step ok s)
  | trigger (now : Int) (s : PMState) :
      PMStep s (ProxyManager.trigger_scrape now s).1

/-- The rotation invariant of `ProxyManager`: the deque holds no
duplicates and no quarantined proxy. -/
def PMInv (s : PMState) : Prop :=
  s.proxies.Nodup ∧ ∀ p ∈ s.bad_proxies, p ∉ s.proxies

/-- The end-of-loop evaluation of `PriceChecker.check_price` (source
lines 740-752): no collected price means the safe default `True`
(standard pricing assumed); otherwise affordable exactly when the
average collected price is at most the premium threshold of 100. -/
def evalPrices (prices : List ℚ) : Bool :=
  if prices.isEmpty then true
  else decide (prices.sum / (prices.length : ℚ) ≤ 100)

/-- The result-consumption loop of `PriceChecker.check_price` (source
lines 717-738): per-registrar price futures are consumed in arrival
order (`none` covers a failed lookup, a raised future, or a timeout); a
collected price above the premium threshold of 100 immediately
classifies the domain premium (`False`); when the processed arrivals are
exhausted the collected prices are evaluated. -/
def check_price_loop : List (Option ℚ) → List ℚ → Bool
  | [], prices => evalPrices prices
  | none :: rest, prices => check_price_loop rest prices
  | some p :: rest, prices =>
    if 100 < p then false else check_price_loop rest (prices ++ [p])

/-- `PriceChecker.check_price` (source lines 708-752), as a function of
the arrival-ordered per-registrar outcomes. -/
def check_price (outcomes : List (Option ℚ)) : Bool :=
  check_price_loop outcomes []

/-- The per-candidate body of `DomainHunter.search_domains` (source
lines 1066-1093), reduced to whether a found-domain record is appended:
the DNS pre-check must pass (`dns_check` returned `True`), the WHOIS
verdict must be "available", and the price filter must accept the
domain; any other combination skips the candidate. -/
def candidateRecorded (dns_ok : Bool) (status : String)
    (affordable : Bool) : Bool :=
  if !dns_ok then false
  else if status = "available" then
    if !affordable then false else true
  else false

/-- A target/temporary file pair on disk; `none` is a missing file. -/
structure FSFile where
  target : Option (List Char)
  temp : Option (List Char)
deriving DecidableEq, Repr

/-- The on-disk states passed through while the temporary file is being
written: after opening (truncation) and after each further chunk the
temporary holds a prefix of the new contents and the target file is
untouched. -/
def tempWriteStates (fs0 : FSFile) (content : List Char) : List FSFile :=
  (List.range (content.length + 1)).map fun k =>
    { fs0 with temp := some (content.take k) }

/-- `DomainHunter.save_state` (source lines 980-992): `json.dump` the
new contents into `hunter_state.json.tmp`, then `os.replace` the
temporary onto `hunter_state.json` — the rename installs the complete
contents in one atomic step and removes the temporary. The value is the
full list of on-disk states the write passes through. -/
def save_state_trace (fs0 : FSFile) (content : List Char) : List FSFile :=
  tempWriteStates fs0 content ++ [{ target := some content, temp := none }]

/-- `DomainHunter.save_results` (source lines 1009-1017): the identical
write-temp-then-rename shape onto `found_domains.json`. -/
def save_results_trace (fs0 : FSFile) (content : List Char) : List FSFile :=
  tempWriteStates fs0 content ++ [{ target := some content, temp := none }]

/-- A consumption-loop run whose remaining outcomes contain no conclusive
signal falls through to the end-of-round evaluation of whatever was
collected before it. -/
theorem check_domain_loop_no_signal (outcomes : List FutureOutcome)
    (acc : List Bool)
    (h : ∀ b : Bool, FutureOutcome.ok (some b) ∉ outcomes) :
    check_domain_loop outcomes acc = evalResults acc := by
  induction outcomes with
  | nil => rfl
  | cons o rest ih =>
    have hrest : ∀ b : Bool, FutureOutcome.ok (some b) ∉ rest := by
      intro b hb
      exact h b (List.mem_cons_of_mem _ hb)
    cases o with
    | exn => simpa [check_domain_loop] using ih hrest
    | ok r =>
      cases r with
      | none => simpa [check_domain_loop] using ih hrest
      | some b => exact absurd (List.mem_cons_self _ _) (h b)

/-- C3: a classification round in which no processed source produced a
conclusive signal (every future raised, timed out, or returned `None`)
reaches the end-of-round evaluation with zero Negative and zero Positive
signals collected, and the verdict is "taken" — never "available" and
never an error. -/
theorem check_domain_all_inconclusive_taken (outcomes : List FutureOutcome)
    (h : ∀ b : Bool, FutureOutcome.ok (some b) ∉ outcomes) :
    check_domain outcomes = "taken" := by
  unfold check_domain
  rw [check_domain_loop_no_signal outcomes [] h]
  rfl

/-- Witness for C3 at a concrete round: one raised future and one `None`
result give the verdict "taken". -/
theorem check_domain_all_inconclusive_taken_witness :
    (∀ b : Bool, FutureOutcome.ok (some b) ∉
      [FutureOutcome.exn, FutureOutcome.ok none]) ∧
    check_domain [FutureOutcome.exn, FutureOutcome.ok none] = "taken" :=
  ⟨by decide, check_domain_all_inconclusive_taken _ (by decide)⟩

/-- C1 fails as stated: the round whose arrival order is one Positive
followed by one Negative contains a Negative signal, yet `check_domain`
returns "available", not "taken" — the first conclusive arrival decides
the round and the later Negative is never consulted. -/
theorem check_domain_positive_preempts_negative :
    FutureOutcome.ok (some false) ∈
      [FutureOutcome.ok (some true), FutureOutcome.ok (some false)] ∧
    check_domain
      [FutureOutcome.ok (some true), FutureOutcome.ok (some false)]
      = "available" ∧
    check_domain
      [FutureOutcome.ok (some true), FutureOutcome.ok (some false)]
      ≠ "taken" :=
  ⟨by decide, rfl, by decide⟩

/-- C1 amended: a Negative signal decides the round as "taken" exactly
when no Positive signal arrives before it; inconclusive outcomes (raises,
timeouts, `None` results) before the Negative and any outcomes after it —
Positives included — cannot override the "taken" verdict. -/
theorem check_domain_negative_first_taken (pre post : List FutureOutcome)
    (h : FutureOutcome.ok (some true) ∉ pre) :
    check_domain (pre ++ FutureOutcome.ok (some false) :: post) = "taken" := by
  unfold check_domain
  have H : ∀ (l : List FutureOutcome), FutureOutcome.ok (some true) ∉ l →
      ∀ acc, check_domain_loop (l ++ FutureOutcome.ok (some false) :: post) acc
        = "taken" := by
    intro l
    induction l with
    | nil => intro _ acc; rfl
    | cons o rest ih =>
      intro hno acc
      have hrest : FutureOutcome.ok (some true) ∉ rest := fun hm =>
        hno (List.mem_cons_of_mem _ hm)
      cases o with
      | exn => simpa [check_domain_loop] using ih hrest acc
      | ok r =>
        cases r with
        | none => simpa [check_domain_loop] using ih hrest acc
        | some b =>
          cases b with
          | false => rfl
          | true => exact absurd (List.mem_cons_self _ _) hno
  exact H pre h []

/-- Witness for the amended C1 at a concrete round: a raise and a `None`
precede the Negative, a Positive follows it, and the verdict is
"taken". -/
theorem check_domain_negative_first_taken_witness :
    FutureOutcome.ok (some true) ∉ [FutureOutcome.exn, FutureOutcome.ok none] ∧
    check_domain ([FutureOutcome.exn, FutureOutcome.ok none] ++
      FutureOutcome.ok (some false) :: [FutureOutcome.ok (some true)])
      = "taken" :=
  ⟨by decide, check_domain_negative_first_taken _ _ (by decide)⟩

/-- C9: `check_domain` is total and binary over every arrival sequence of
per-source outcomes — the verdict is always exactly "taken" or
"available" — and `_check_with_retry` always returns `True`, `False` or
`None`, never propagating a raise. -/
theorem check_domain_total_binary :
    (∀ outcomes : List FutureOutcome,
      check_domain outcomes = "taken" ∨ check_domain outcomes = "available") ∧
    (∀ (up : Bool) (pg1 pg2 : Option String) (c1 c2 : CallResult),
      WHOISChecker._check_with_retry up pg1 pg2 c1 c2 = some true ∨
      WHOISChecker._check_with_retry up pg1 pg2 c1 c2 = some false ∨
      WHOISChecker._check_with_retry up pg1 pg2 c1 c2 = none) := by
  constructor
  · intro outcomes
    unfold check_domain
    have H : ∀ (l : List FutureOutcome) (acc : List Bool),
        check_domain_loop l acc = "taken" ∨
        check_domain_loop l acc = "available" := by
      intro l
      induction l with
      | nil =>
        intro acc
        unfold check_domain_loop evalResults
        split
        · exact Or.inl rfl
        · split
          · exact Or.inr rfl
          · exact Or.inl rfl
      | cons o rest ih =>
        intro acc
        cases o with
        | exn => simpa [check_domain_loop] using ih acc
        | ok r =>
          cases r with
          | none => simpa [check_domain_loop] using ih acc
          | some b =>
            cases b with
            | false => exact Or.inl rfl
            | true => exact Or.inr rfl
    exact H outcomes []
  · intro up pg1 pg2 c1 c2
    unfold WHOISChecker._check_with_retry
    cases h1 : (WHOISChecker._check up pg1 c1).1 with
    | none =>
      cases h2 : (WHOISChecker._check (!up) pg2 c2).1 with
      | none => right; right; simp [h1, h2]
      | some w =>
        cases w with
        | false => right; left; simp [h1, h2]
        | true => left; simp [h1, h2]
    | some v =>
      cases v with
      | false => right; left; simp [h1]
      | true => left; simp [h1]

/-- C6: a source checker's failure always surfaces as `None`, never as an
uncaught raise: `check_whois_com` maps a raised request, a non-200
response, and an unparseable body (no availability or registration
marker) to `None`, and `_check` maps a raised capability call to `None`
for every proxy strategy. -/
theorem source_failure_absorbed :
    (WHOISChecker.check_whois_com HttpResult.exn = none) ∧
    (∀ (status : Nat) (text : String), status ≠ 200 →
      WHOISChecker.check_whois_com (HttpResult.resp status text) = none) ∧
    (∀ text : String,
      containsSub (lowerChars text) ("no match".toList) = false →
      containsSub (lowerChars text) ("not found".toList) = false →
      containsSub (lowerChars text) ("available for registration".toList)
        = false →
      containsSub (lowerChars text) ("registrar:".toList) = false →
      containsSub (lowerChars text) ("creation date:".toList) = false →
      containsSub (lowerChars text) ("registry expiry".toList) = false →
      containsSub (lowerChars text) ("updated date:".toList) = false →
      WHOISChecker.check_whois_com (HttpResult.resp 200 text) = none) ∧
    (∀ (up : Bool) (pg : Option String),
      (WHOISChecker._check up pg CallResult.raised).1 = none) := by
  refine ⟨rfl, ?_, ?_, ?_⟩
  · intro status text h
    simp [WHOISChecker.check_whois_com, h]
  · intro text h1 h2 h3 h4 h5 h6 h7
    simp_all [WHOISChecker.check_whois_com]
  · intro up pg
    unfold WHOISChecker._check
    by_cases hup : up = true
    · cases pg with
      | none => simp [hup]
      | some p => simp [hup]
    · simp at hup
      simp [hup]

/-- Witness for C6 at concrete inputs: a 404 response and an empty body
both give `None`, as does a raised capability call with a proxy in
hand. -/
theorem source_failure_absorbed_witness :
    (404 : Nat) ≠ 200 ∧
    WHOISChecker.check_whois_com (HttpResult.resp 404 "oops") = none ∧
    WHOISChecker.check_whois_com (HttpResult.resp 200 "") = none ∧
    (WHOISChecker._check true (some "1.2.3.4:80") CallResult.raised).1
      = none :=
  ⟨by decide,
    source_failure_absorbed.2.1 404 "oops" (by decide),
    source_failure_absorbed.2.2.1 "" (by decide) (by decide) (by decide)
      (by decide) (by decide) (by decide) (by decide),
    source_failure_absorbed.2.2.2 true (some "1.2.3.4:80")⟩

/-- C2 fails as stated: a checkpoint persisted after processing candidate
index 5 at length 3, TLD 2 stores `current_combo_index = 5`; after
restart the first index processed is 5 again — the candidate "aaf.is"
is re-processed — not the successor 6, and likewise the spec example
cursor `{length=4, tldIndex=2, comboIndex=500}` resumes at 500, not
501. -/
theorem cursor_resumption_repeats_candidate :
    firstResumed (stateAfterCandidate ⟨3, 2, 0⟩ 5) 17576 = some 5 ∧
    firstResumed (stateAfterCandidate ⟨3, 2, 0⟩ 5) 17576 ≠ some 6 ∧
    candidateAt 3 2 5 = some "aaf.is" ∧
    firstResumed (stateAfterCandidate ⟨4, 2, 0⟩ 500) 1679616 = some 500 ∧
    firstResumed (stateAfterCandidate ⟨4, 2, 0⟩ 500) 1679616 ≠ some 501 := by
  have h1 : firstResumed (stateAfterCandidate ⟨3, 2, 0⟩ 5) 17576 = some 5 := by
    show (List.range' 5 (17576 - 5)).head? = some 5
    have h : (17576 : Nat) - 5 = 17570 + 1 := by norm_num
    rw [h, List.range'_succ]
    rfl
  have h2 : firstResumed (stateAfterCandidate ⟨4, 2, 0⟩ 500) 1679616
      = some 500 := by
    show (List.range' 500 (1679616 - 500)).head? = some 500
    have h : (1679616 : Nat) - 500 = 1679115 + 1 := by norm_num
    rw [h, List.range'_succ]
    rfl
  refine ⟨h1, ?_, ?_, h2, ?_⟩
  · rw [h1]; simp
  · decide
  · rw [h2]; simp

/-- C2 amended: after a checkpoint persisted upon processing candidate
index `i` of the current combo list, a restart resumes at exactly `i` —
the last processed candidate is processed once more — and then continues
in order through every remaining index, skipping none. -/
theorem cursor_resumption_off_by_one (s : ScanState) (i n : Nat)
    (h : i < n) :
    firstResumed (stateAfterCandidate s i) n = some i ∧
    ∀ j, i ≤ j → j < n → j ∈ resumedIndices (stateAfterCandidate s i) n := by
  constructor
  · show (List.range' i (n - i)).head? = some i
    have hn : n - i = (n - i - 1) + 1 := by omega
    rw [hn, List.range'_succ]
    rfl
  · intro j hij hjn
    show j ∈ List.range' i (n - i)
    rw [List.mem_range'_1]
    omega

/-- Witness for the amended C2 at a concrete checkpoint: persisted combo
index 2 over 5 combos resumes at index 2 and still covers index 3. -/
theorem cursor_resumption_off_by_one_witness :
    (2 : Nat) < 5 ∧
    firstResumed (stateAfterCandidate ⟨3, 0, 0⟩ 2) 5 = some 2 ∧
    (3 : Nat) ∈ resumedIndices (stateAfterCandidate ⟨3, 0, 0⟩ 2) 5 :=
  ⟨by decide,
    (cursor_resumption_off_by_one ⟨3, 0, 0⟩ 2 5 (by decide)).1,
    (cursor_resumption_off_by_one ⟨3, 0, 0⟩ 2 5 (by decide)).2 3 (by decide)
      (by decide)⟩

/-- C4: a cursor whose length exceeds the maximum 6 wraps in one step to
`{3, 0, 0}`; an exhausted TLD list advances to the next length with both
indices reset to 0; and from any cursor at most two normalization steps
reach a processable cursor — the enumeration cycles and never runs out
of states. -/
theorem cursor_wraparound (s : ScanState) :
    (6 < s.current_length → searchStep s = ⟨3, 0, 0⟩) ∧
    (s.current_length ≤ 6 → PRIORITY_TLDS.length ≤ s.current_tld_index →
      searchStep s = ⟨s.current_length + 1, 0, 0⟩) ∧
    Processable (searchStep (searchStep s)) := by
  refine ⟨?_, ?_, ?_⟩
  · intro h
    simp [searchStep, h]
  · intro h1 h2
    have h1' : ¬ 6 < s.current_length := not_lt.mpr h1
    simp [searchStep, h1', h2]
  · have hlen : PRIORITY_TLDS.length = 19 := rfl
    by_cases h1 : 6 < s.current_length
    · simp [searchStep, Processable, h1, hlen]
    · by_cases h2 : 19 ≤ s.current_tld_index
      · by_cases h3 : 6 < s.current_length + 1
        · simp [searchStep, Processable, h1, h2, h3, hlen]
        · simp [searchStep, Processable, h1, h2, h3, hlen]
          omega
      · simp [searchStep, Processable, h1, h2, hlen]
        omega

/-- Witness for C4 at concrete cursors: length 7 wraps to `{3, 0, 0}`,
and an exhausted TLD list at length 6 advances to length 7. -/
theorem cursor_wraparound_witness :
    6 < (7 : Nat) ∧ searchStep ⟨7, 5, 123⟩ = ⟨3, 0, 0⟩ ∧
    (6 : Nat) ≤ 6 ∧ PRIORITY_TLDS.length ≤ 19 ∧
    searchStep ⟨6, 19, 0⟩ = ⟨7, 0, 0⟩ :=
  ⟨by decide, (cursor_wraparound ⟨7, 5, 123⟩).1 (by decide), by decide,
    by decide,
    (cursor_wraparound ⟨6, 19, 0⟩).2.1 (by decide) (by decide)⟩

/-- Membership in the bounded deque after an append comes from the old
deque or is the new entry. -/
theorem mem_dequeAppend {l : List String} {a q : String}
    (h : q ∈ dequeAppend l a) : q ∈ l ∨ q = a := by
  unfold dequeAppend at h
  split_ifs at h with hlen
  · rcases List.mem_append.mp h with h' | h'
    · exact Or.inl h'
    · exact Or.inr (List.mem_singleton.mp h')
  · rcases List.mem_append.mp h with h' | h'
    · exact Or.inl ((List.drop_sublist 1 l).subset h')
    · exact Or.inr (List.mem_singleton.mp h')

/-- The bounded deque append preserves freedom from duplicates when the
new entry is fresh. -/
theorem nodup_dequeAppend {l : List String} {a : String}
    (hl : l.Nodup) (ha : a ∉ l) : (dequeAppend l a).Nodup := by
  unfold dequeAppend
  split_ifs with hlen
  · exact (List.perm_append_singleton a l).nodup_iff.mpr
      (List.nodup_cons.mpr ⟨ha, hl⟩)
  · have hdl : (l.drop 1).Nodup := hl.sublist (List.drop_sublist 1 l)
    have hda : a ∉ l.drop 1 := fun h => ha ((List.drop_sublist 1 l).subset h)
    exact (List.perm_append_singleton a (l.drop 1)).nodup_iff.mpr
      (List.nodup_cons.mpr ⟨hda, hdl⟩)

/-- Quarantine membership survives every single `ProxyManager` step. -/
theorem pmstep_preserves_bad {s t : PMState} (h : PMStep s t) {p : String}
    (hp : p ∈ s.bad_proxies) : p ∈ t.bad_proxies := by
  cases h with
  | get s =>
    cases hq : s.proxies with
    | nil => simpa [ProxyManager.get_proxy, hq] using hp
    | cons q rest => simpa [ProxyManager.get_proxy, hq] using hp
  | bad q s =>
    simpa [ProxyManager.mark_bad] using List.mem_insert_of_mem hp
  | scrape found now s =>
    simpa [ProxyManager.scrape_enqueue] using hp
  | test ok s =>
    cases hq : s.proxy_queue with
    | nil => simpa [ProxyManager.tester_step, hq] using hp
    | cons q rest =>
      simp only [ProxyManager.tester_step, hq]
      split_ifs <;> simpa using hp
  | trigger now s =>
    simp only [ProxyManager.trigger_scrape]
    split_ifs <;> simpa using hp

/-- Every single `ProxyManager` step preserves the rotation
invariant. -/
theorem pmstep_preserves_inv {s t : PMState} (h : PMStep s t)
    (hs : PMInv s) : PMInv t := by
  obtain ⟨hnd, hexcl⟩ := hs
  cases h with
  | get s =>
    cases hq : s.proxies with
    | nil => refine ⟨?_, ?_⟩ <;> simp [PMInv, ProxyManager.get_proxy, hq]
    | cons q rest =>
      rw [hq] at hnd
      refine ⟨?_, ?_⟩
      · show ((ProxyManager.get_proxy s).2.proxies).Nodup
        simp only [ProxyManager.get_proxy, hq]
        exact (List.perm_append_singleton q rest).nodup_iff.mpr hnd
      · intro p hp
        have hnp : p ∉ s.proxies := hexcl p (by
          simpa [ProxyManager.get_proxy, hq] using hp)
        simp only [ProxyManager.get_proxy, hq]
        intro hmem
        exact hnp (by
          rw [hq]
          exact (List.perm_append_singleton q rest).mem_iff.mp hmem)
  | bad q s =>
    refine ⟨?_, ?_⟩
    · simpa [PMInv, ProxyManager.mark_bad] using hnd.erase q
    · intro p hp
      simp only [ProxyManager.mark_bad] at hp ⊢
      rcases List.mem_insert_iff.mp hp with rfl | hp'
      · intro hmem
        exact ((hnd.mem_erase_iff).mp hmem).1 rfl
      · intro hmem
        exact hexcl p hp' (List.mem_of_mem_erase hmem)
  | scrape found now s =>
    exact ⟨by simpa [ProxyManager.scrape_enqueue] using hnd,
      fun p hp => by
        simpa [ProxyManager.scrape_enqueue] using
          hexcl p (by simpa [ProxyManager.scrape_enqueue] using hp)⟩
  | test ok s =>
    cases hq : s.proxy_queue with
    | nil => simpa [PMInv, ProxyManager.tester_step, hq] using ⟨hnd, hexcl⟩
    | cons q rest =>
      simp only [PMInv, ProxyManager.tester_step, hq]
      split_ifs with hbadq hok
      · exact ⟨hnd, hexcl⟩
      · refine ⟨nodup_dequeAppend hnd hok.2, ?_⟩
        intro p hp hmem
        rcases mem_dequeAppend hmem with h' | rfl
        · exact hexcl p hp h'
        · exact hbadq hp
      · exact ⟨hnd, hexcl⟩
  | trigger now s =>
    simp only [PMInv, ProxyManager.trigger_scrape]
    split_ifs <;> exact ⟨hnd, hexcl⟩

/-- C8: once `mark_bad` has put a proxy in the quarantine set of a state
satisfying the rotation invariant, any interleaving of `get_proxy`,
`mark_bad`, scrape completions, tester iterations and `trigger_scrape`
calls keeps it quarantined and out of the rotation deque — it is never
re-admitted, and `get_proxy` never returns it again. -/
theorem mark_bad_quarantine (s t : PMState) (p : String)
    (hinv : PMInv s) (hbad : p ∈ s.bad_proxies)
    (hsteps : Relation.ReflTransGen PMStep s t) :
    p ∈ t.bad_proxies ∧ p ∉ t.proxies ∧
      (ProxyManager.get_proxy t).1 ≠ some p := by
  have hend : PMInv t ∧ p ∈ t.bad_proxies := by
    induction hsteps with
    | refl => exact ⟨hinv, hbad⟩
    | tail _ hstep ih =>
      exact ⟨pmstep_preserves_inv hstep ih.1, pmstep_preserves_bad hstep ih.2⟩
  obtain ⟨hinvt, hbadt⟩ := hend
  have hnp : p ∉ t.proxies := hinvt.2 p hbadt
  refine ⟨hbadt, hnp, ?_⟩
  cases hq : t.proxies with
  | nil => simp [ProxyManager.get_proxy, hq]
  | cons q rest =>
    simp only [ProxyManager.get_proxy, hq]
    intro hcontra
    have hqp : q = p := by simpa using hcontra
    exact hnp (by
      rw [hq, hqp]
      exact List.mem_cons_self _ _)

/-- Witness for C8 at a concrete state and run: with one good proxy in
the rotation and one quarantined, a `mark_bad` step on the quarantined
address leaves it quarantined, outside the rotation and never returned
by `get_proxy`. -/
theorem mark_bad_quarantine_witness :
    PMInv ⟨["1.1.1.1:80"], ["9.9.9.9:80"], [], 0, false⟩ ∧
    "9.9.9.9:80" ∈
      (⟨["1.1.1.1:80"], ["9.9.9.9:80"], [], 0, false⟩ : PMState).bad_proxies ∧
    ("9.9.9.9:80" ∈
        (ProxyManager.mark_bad "9.9.9.9:80"
          ⟨["1.1.1.1:80"], ["9.9.9.9:80"], [], 0, false⟩).bad_proxies ∧
      "9.9.9.9:80" ∉
        (ProxyManager.mark_bad "9.9.9.9:80"
          ⟨["1.1.1.1:80"], ["9.9.9.9:80"], [], 0, false⟩).proxies ∧
      (ProxyManager.get_proxy
          (ProxyManager.mark_bad "9.9.9.9:80"
            ⟨["1.1.1.1:80"], ["9.9.9.9:80"], [], 0, false⟩)).1 ≠
        some "9.9.9.9:80") :=
  ⟨⟨by decide, by decide⟩, by decide,
    mark_bad_quarantine _ _ _ ⟨by decide, by decide⟩ (by decide)
      (Relation.ReflTransGen.single (PMStep.bad "9.9.9.9:80" _))⟩

/-- C7: a `trigger_scrape` call is a no-op — state unchanged, no scrape
thread started — whenever the pool already holds at least 30 proxies, or
the previous scrape lies within the last 3600 seconds, or a scrape is
already in progress. -/
theorem trigger_scrape_gated (now : Int) (s : PMState)
    (h : 30 ≤ s.proxies.length ∨ now - s.last_scrape ≤ 3600 ∨
      s.scraping = true) :
    ProxyManager.trigger_scrape now s = (s, false) := by
  unfold ProxyManager.trigger_scrape
  rw [if_neg]
  rintro ⟨h1, h2, h3⟩
  rcases h with h' | h' | h'
  · omega
  · omega
  · rw [h'] at h2
    cases h2

/-- Witness for C7 at a concrete state: a pool of 30 proxies blocks the
scrape even though the last one is long past. -/
theorem trigger_scrape_gated_witness :
    (30 ≤ (List.replicate 30 "1.1.1.1:80").length ∨
      (1000000 : Int) - 0 ≤ 3600 ∨ false = true) ∧
    ProxyManager.trigger_scrape 1000000
      ⟨List.replicate 30 "1.1.1.1:80", [], [], 0, false⟩ =
      (⟨List.replicate 30 "1.1.1.1:80", [], [], 0, false⟩, false) :=
  ⟨Or.inl (by decide),
    trigger_scrape_gated 1000000
      ⟨List.replicate 30 "1.1.1.1:80", [], [], 0, false⟩
      (Or.inl (by decide))⟩

/-- C10: a found-domain record is appended only when the candidate
passed the DNS pre-check, was classified "available", and `check_price`
accepted it; and when every registrar lookup fails — no price collected —
`check_price` returns `True`, so an available domain whose price cannot
be determined is still recorded. -/
theorem found_record_gated :
    (∀ (d : Bool) (st : String) (outs : List (Option ℚ)),
      candidateRecorded d st (check_price outs) = true →
      d = true ∧ st = "available" ∧ check_price outs = true) ∧
    (∀ outs : List (Option ℚ), (∀ o ∈ outs, o = none) →
      check_price outs = true) := by
  constructor
  · intro d st outs h
    cases d with
    | false => simp [candidateRecorded] at h
    | true =>
      by_cases hst : st = "available"
      · subst hst
        cases hcp : check_price outs with
        | true => exact ⟨rfl, rfl, rfl⟩
        | false => rw [hcp] at h; simp [candidateRecorded] at h
      · simp [candidateRecorded, hst] at h
  · intro outs houts
    unfold check_price
    have H : ∀ (l : List (Option ℚ)), (∀ o ∈ l, o = none) →
        ∀ acc, check_price_loop l acc = evalPrices acc := by
      intro l
      induction l with
      | nil => intro _ acc; rfl
      | cons o rest ih =>
        intro hl acc
        have ho : o = none := hl o (List.mem_cons_self _ _)
        subst ho
        exact ih (fun o' ho' => hl o' (List.mem_cons_of_mem _ ho')) acc
    rw [H outs houts []]
    rfl

/-- Witness for C10 at concrete inputs: a recorded candidate with all
three lookups failed still has a passing DNS pre-check, an "available"
verdict and an accepting price filter. -/
theorem found_record_gated_witness :
    candidateRecorded true "available" (check_price [none, none, none])
        = true ∧
    (true = true ∧ "available" = "available" ∧
      check_price [none, none, none] = true) ∧
    (∀ o ∈ ([none, none, none] : List (Option ℚ)), o = none) ∧
    check_price [none, none, none] = true :=
  ⟨by decide, found_record_gated.1 true "available" [none, none, none]
      (by decide),
    by decide,
    found_record_gated.2 [none, none, none] (by decide)⟩

/-- C5: at every instant of a `save_state` or `save_results` write — any
crash point included — the target file holds either the complete old
contents or the complete new contents, never a partial write; a write
that fails at any point before the rename leaves the target exactly as
it was; and a completed write ends with the target holding the new
contents. -/
theorem persistence_atomic (fs0 : FSFile) (content : List Char) :
    (∀ fs ∈ save_state_trace fs0 content,
      fs.target = fs0.target ∨ fs.target = some content) ∧
    (∀ fs ∈ save_results_trace fs0 content,
      fs.target = fs0.target ∨ fs.target = some content) ∧
    (∀ fs ∈ tempWriteStates fs0 content, fs.target = fs0.target) ∧
    (save_state_trace fs0 content).getLast? =
      some { target := some content, temp := none } ∧
    (save_results_trace fs0 content).getLast? =
      some { target := some content, temp := none } := by
  have hpre : ∀ fs ∈ tempWriteStates fs0 content,
      fs.target = fs0.target := by
    intro fs hfs
    obtain ⟨k, _, rfl⟩ := List.mem_map.mp hfs
    rfl
  have htrace : ∀ fs ∈ tempWriteStates fs0 content ++
      [({ target := some content, temp := none } : FSFile)],
      fs.target = fs0.target ∨ fs.target = some content := by
    intro fs hfs
    rcases List.mem_append.mp hfs with h | h
    · exact Or.inl (hpre fs h)
    · rw [List.mem_singleton.mp h]
      exact Or.inr rfl
  exact ⟨htrace, htrace, hpre, List.getLast?_concat _, List.getLast?_concat _⟩

/-- Witness for C5 at a concrete write: mid-write of `"ab"` over an old
target `"x"`, the on-disk state that holds only `"a"` in the temporary
still shows the old target contents. -/
theorem persistence_atomic_witness :
    ({ target := some "x".toList, temp := some "a".toList } : FSFile) ∈
      save_state_trace { target := some "x".toList, temp := none }
        "ab".toList ∧
    (({ target := some "x".toList, temp := some "a".toList } : FSFile).target
        = ({ target := some "x".toList, temp := none } : FSFile).target ∨
      ({ target := some "x".toList, temp := some "a".toList } : FSFile).target
        = some "ab".toList) :=
  ⟨by decide,
    (persistence_atomic { target := some "x".toList, temp := none }
      "ab".toList).1 _ (by decide)⟩

end DomainHunterModel
